import Mathlib

/-!
Verification of the transformation-history engine of pymatgen/alchemy/materials.py.

The file shallowly embeds the two core classes of the source:

* TransformedStructure (the specification calls it a Lineage): a sequence of
  structures, the transformations producing each transition, a redo buffer and a
  provenance record, with append / undo / redo / extend / snapshot / serialize
  operations.

* TransformedStructureTree (the specification calls it a LineageForest): an
  ordered collection of TransformedStructure objects advanced together, with
  one-to-many fan-out in append_transformation.  Because the source mutates the
  member objects in place and aliases them, the forest is embedded with an
  explicit object store (a heap of member objects) plus a member list of
  references into that store.

Crystal structures themselves, and the concrete transformation classes, are
external collaborators of this code (they live outside the excerpt); per the
specification an artifact is opaque beyond equality and serialization, and a
transformation is a value with a single capability apply(artifact).  They are
modelled accordingly below.

Python exceptions are embedded as an error type; every mutating method returns
an Except value whose error case carries both the raised error and the state of
the object at the moment the exception propagates (Python objects keep the
mutations performed before a raise).
-/

/-- Error messages of the raised exceptions, as tokens.  The source raises
IndexError with the texts listed in the comments; the forest getitem arity
error is raised by the Python runtime itself. -/
inductive ErrMsg where
  /-- source text: Can-t undo. Already at oldest change. -/
  | atOldestChange
  /-- source text: Can-t undo. Already at latest change. (the source reuses the
  undo wording for redo) -/
  | atLatestChange
  /-- list index out of range, raised by list indexing -/
  | listIndexOutOfRange
  /-- pop from empty list, raised by list.pop on an empty list -/
  | popFromEmptyList
  /-- missing key input_structure in a history record -/
  | inputStructureKey
  /-- a bound method received more positional arguments than it accepts -/
  | tooManyArguments
  /-- list.remove(x): x not in list -/
  | notInList
  /-- a member reference not present in the object store (unreachable for
  states built by the modelled operations) -/
  | danglingReference
  /-- a transformation rejected its input structure -/
  | rejectedByTransformation
  deriving Repr, DecidableEq

/-- Python exceptions visible in the modelled code, by exception class. -/
inductive PyErr where
  | indexError (msg : ErrMsg)
  | typeError (msg : ErrMsg)
  | keyError (msg : ErrMsg)
  | valueError (msg : ErrMsg)
  /-- the specification names this class InvalidOperationError: an error
  raised inside a transformation and propagated verbatim by the engine -/
  | invalidOperationError (msg : ErrMsg)
  deriving Repr, DecidableEq

/-- Modelled from the spec: an artifact (a crystal structure) is opaque to
this core beyond equality and serialization (spec Glossary, section 1); the
Structure class lives outside the excerpt.  We embed it as an opaque value
with decidable equality. -/
abbrev Struct := Nat

/-- Modelled from the spec: a provenance-style record is an opaque key-value
record (spec section 3); its internals are never read by the engine. -/
abbrev Prov := Nat

/-- Modelled from the spec: a transformation is a value with the single
capability apply(artifact) -> artifact, failing with InvalidOperationError on
rejected input (spec sections 4.1 and 6).  At the Lineage level the contract
requires a single-artifact result.  Serialization of a transformation
(to_dict / transformation_from_dict, defined outside the excerpt) is an
inverse pair per the spec, so the serialized record is modelled by the
transformation value itself. -/
structure Transformation where
  apply_transformation : Struct → Except PyErr Struct

/-- One element of a serialized history list.  A stepRec models a serialized
transformation dict carrying the extra key input_structure; a provRec models
any other dict (a provenance record, or the empty dict used as the initial
source), which has no input_structure key.  Structure.from_dict /
Structure.to_dict (outside the excerpt) are likewise modelled as an inverse
pair, so the serialized structure is the structure value itself. -/
inductive HistItem where
  | provRec (p : Prov)
  | stepRec (t : Transformation) (input_structure : Struct)

/-- The empty dict to which self._source is first set. -/
def emptySource : HistItem := .provRec 0

/-- State of a TransformedStructure object: fields _source, _structures,
_transformations, _redo_trans of the source class. -/
structure TransformedStructure where
  source : HistItem
  structures : List Struct
  transformations : List Transformation
  redo_trans : List Transformation

namespace TransformedStructure

/-- TransformedStructure.append_transformation (source lines 95-112):

    new_s = transformation.apply_transformation(self._structures[-1])
    self._structures.append(new_s)
    self._transformations.append(transformation)
    if clear_redo: self._redo_trans = []

The transformation is applied before any field is mutated, so a raise leaves
the object unchanged (the error case returns the untouched state). -/
def append_transformation (self : TransformedStructure) (transformation : Transformation)
    (clear_redo : Bool) : Except (PyErr × TransformedStructure) TransformedStructure :=
  match self.structures.getLast? with
  | none => .error (.indexError .listIndexOutOfRange, self)
  | some last =>
    match transformation.apply_transformation last with
    | .error e => .error (e, self)
    | .ok new_s =>
      .ok { self with
            structures := self.structures ++ [new_s],
            transformations := self.transformations ++ [transformation],
            redo_trans := if clear_redo then [] else self.redo_trans }

/-- TransformedStructure.undo_last_transformation (source lines 65-75):
checks len(self._transformations) == 0 and raises IndexError, else pops the
last structure, then pops the last transformation and appends it to
self._redo_trans.  The length check and structures.pop both precede any
mutation, so every raising path returns the unchanged state. -/
def undo_last_transformation (self : TransformedStructure) :
    Except (PyErr × TransformedStructure) TransformedStructure :=
  if self.transformations.length = 0 then
    .error (.indexError .atOldestChange, self)
  else
    match self.structures.getLast? with
    | none => .error (.indexError .popFromEmptyList, self)
    | some _ =>
      match self.transformations.getLast? with
      | none => .error (.indexError .popFromEmptyList, self)
      | some t =>
        .ok { self with
              structures := self.structures.dropLast,
              transformations := self.transformations.dropLast,
              redo_trans := self.redo_trans ++ [t] }

/-- TransformedStructure.redo_next_transformation (source lines 77-87):
checks len(self._redo_trans) == 0 and raises IndexError, else pops the last
redo entry and replays it via append_transformation(t, False).  The pop
happens before the append, so a failing replay leaves the redo entry
popped. -/
def redo_next_transformation (self : TransformedStructure) :
    Except (PyErr × TransformedStructure) TransformedStructure :=
  if self.redo_trans.length = 0 then
    .error (.indexError .atLatestChange, self)
  else
    match self.redo_trans.getLast? with
    | none => .error (.indexError .popFromEmptyList, self)
    | some t =>
      append_transformation
        { self with redo_trans := self.redo_trans.dropLast } t false

/-- TransformedStructure.__getitem__ (source lines 89-90): returns the pair
(self._structures[index], self._transformations[0:index]).  Indexing raises
IndexError when the index is out of range; the slice truncates silently.
The method reads no mutable state destructively. -/
def getitem (self : TransformedStructure) (index : Nat) :
    Except PyErr (Struct × List Transformation) :=
  match self.structures[index]? with
  | none => .error (.indexError .listIndexOutOfRange)
  | some s => .ok (s, self.transformations.take index)

/-- TransformedStructure.__len__ (source lines 92-93). -/
def len (self : TransformedStructure) : Nat := self.structures.length

/-- TransformedStructure.final_structure (source lines 186-191): returns
self._structures[-1]; none models the IndexError on an empty list. -/
def final_structure (self : TransformedStructure) : Option Struct :=
  self.structures.getLast?

/-- TransformedStructure.extend_transformations (source lines 114-123): calls
append_transformation(t) for each t in order; a raise propagates with the
partially extended state. -/
def extend_transformations : TransformedStructure → List Transformation →
    Except (PyErr × TransformedStructure) TransformedStructure
  | self, [] => .ok self
  | self, t :: rest =>
    match self.append_transformation t true with
    | .error e => .error e
    | .ok l2 => extend_transformations l2 rest

/-- The history-loading loop of TransformedStructure.__init__ (source lines
55-59), over history[1:]: for each record, Structure.from_dict(record
[input_structure]) is appended to _structures and transformation_from_dict
(record) to _transformations.  A record without the input_structure key
raises KeyError. -/
def processHistory : List HistItem → Except PyErr (List Struct × List Transformation)
  | [] => .ok ([], [])
  | .stepRec t s :: rest =>
    match processHistory rest with
    | .error e => .error e
    | .ok (ss, ts) => .ok (s :: ss, t :: ts)
  | .provRec _ :: _ => .error (.keyError .inputStructureKey)

/-- TransformedStructure.__init__ (source lines 36-63): sets up the four
fields, loads history (history[0] becomes _source, later records feed the
structure and transformation lists), appends the input structure, then
applies each supplied transformation via append_transformation.  A raise
during construction means no object is produced. -/
def init (structure_ : Struct) (transformations : List Transformation)
    (history : List HistItem) : Except PyErr TransformedStructure :=
  match processHistory (history.drop 1) with
  | .error e => .error e
  | .ok (ss, ts) =>
    let l0 : TransformedStructure :=
      { source := history.headD emptySource,
        structures := ss ++ [structure_],
        transformations := ts,
        redo_trans := [] }
    match l0.extend_transformations transformations with
    | .error (e, _) => .error e
    | .ok l => .ok l

/-- The version tag "1.0" written by to_dict (module attribute __version__),
modelled as a pair of numerals. -/
def formatVersion : Nat × Nat := (1, 0)

/-- The dict produced by TransformedStructure.to_dict: the final structure
fields, the history list, and the version tag. -/
structure TsDict where
  struct_fields : Struct
  history : List HistItem
  version : Nat × Nat

/-- The history-building loop of to_dict (source lines 208-211): for i, t in
enumerate(self._transformations), emit t.to_dict augmented with
input_structure = self._structures[i].to_dict.  The lists are walked in
lockstep, so element i of the transformation list is paired with element i of
the structure list; running past the structure list raises IndexError. -/
def buildHistory : List Transformation → List Struct → Except PyErr (List HistItem)
  | [], _ => .ok []
  | _ :: _, [] => .error (.indexError .listIndexOutOfRange)
  | t :: ts, s :: ss =>
    match buildHistory ts ss with
    | .error e => .error e
    | .ok rest => .ok (HistItem.stepRec t s :: rest)

/-- TransformedStructure.to_dict (source lines 201-214): the final structure
serialization, plus history = [self._source] ++ one record per
transformation, plus the version tag. -/
def to_dict (self : TransformedStructure) : Except PyErr TsDict :=
  match self.structures.getLast? with
  | none => .error (.indexError .listIndexOutOfRange)
  | some fin =>
    match buildHistory self.transformations self.structures with
    | .error e => .error e
    | .ok steps =>
      .ok { struct_fields := fin,
            history := self.source :: steps,
            version := formatVersion }

/-- TransformedStructure.from_dict (source lines 193-199):
Structure.from_dict(d) recovers the final structure (the extra history and
version keys are ignored by the structure deserializer), and the lineage is
rebuilt as TransformedStructure(s, [], d[history]). -/
def from_dict (d : TsDict) : Except PyErr TransformedStructure :=
  init d.struct_fields [] d.history

/-- The data-model invariant of the spec (section 3):
len(transformations) == len(artifacts) - 1, with artifacts never empty. -/
def Inv (self : TransformedStructure) : Prop :=
  self.structures.length = self.transformations.length + 1

instance (l : TransformedStructure) : Decidable (Inv l) := by
  unfold Inv; infer_instance

/-- Iterated undo: undo_iter (k+1) performs k undos and then one more, each
raise propagating the state at the raise. -/
def undo_iter : Nat → TransformedStructure →
    Except (PyErr × TransformedStructure) TransformedStructure
  | 0, l => .ok l
  | k + 1, l =>
    match undo_iter k l with
    | .error e => .error e
    | .ok l2 => l2.undo_last_transformation

end TransformedStructure

/-- Modelled from the spec: at the forest level a transformation may return a
single artifact or a finite sequence of artifacts, distinguished at the call
site by arity of result (spec sections 4.2 and 9; the source tests
isinstance(new_structs, Iterable), and the Structure class, outside the
excerpt, plays the non-iterable single case). -/
inductive TransResult where
  | one (s : Struct)
  | many (ls : List Struct)

/-- A forest-level transformation value: apply(artifact) -> artifact or
sequence of artifacts, raising on rejected input. -/
structure TreeTransformation where
  apply_transformation : Struct → Except PyErr TransResult

/-- State of one member TransformedStructure object as manipulated by the
tree (the tree touches only _structures, _transformations and _redo_trans of
its members; the provenance field is never read or written by any modelled
tree operation and is omitted). -/
structure TLin where
  structures : List Struct
  transformations : List TreeTransformation
  redo_trans : List TreeTransformation

/-- State of a TransformedStructureTree.  The source mutates its member
objects in place and aliases them (new_tstruct = x copies a reference, not
the object), so the embedding keeps an explicit object store: store is the
heap of member objects, and members is self._transformed_structures, a list
of references into the store.  No modelled tree operation allocates into or
shrinks the store; only init fills it. -/
structure TransformedStructureTree where
  store : List TLin
  members : List Nat

namespace TransformedStructureTree

/-- TransformedStructureTree.__init__ (source lines 227-250) specialized to an
empty constructor transformation list and no histories: each input structure
s becomes a fresh member TransformedStructure(s, [], None), whose state is
([s], [], []). -/
def init (structures_list : List Struct) : TransformedStructureTree :=
  { store := structures_list.map (fun s => ⟨[s], [], []⟩),
    members := List.range structures_list.length }

/-- TransformedStructureTree.__len__ (source lines 275-276); the spec calls
it member_count(). -/
def member_count (self : TransformedStructureTree) : Nat := self.members.length

/-- The member sweep of TransformedStructureTree.append_transformation
(source lines 291-306), one recursive step per member reference x, in list
order, threading the mutable store:

    new_structs = transformation.apply_transformation(x.final_structure)
    if isinstance(new_structs, Iterable):
        structures_to_delete.append(x)
        for new_struct in new_structs:
            new_tstruct = x                       # reference copy: aliases x
            new_tstruct._structures.append(new_struct)
            new_tstruct._transformations.append(transformation)
            new_transformed_structures.append(new_tstruct)
    else:
        x._structures.append(new_structs)
        x._transformations.append(transformation)
    if clear_redo: x._redo_trans = []

Returns (store, structures_to_delete, new_transformed_structures) on success;
a raise propagates the error together with the store as mutated so far. -/
def sweepMembers (t : TreeTransformation) (clear_redo : Bool) :
    List Nat → List TLin → Except (PyErr × List TLin) (List TLin × List Nat × List Nat)
  | [], store => .ok (store, [], [])
  | x :: rest, store =>
    match store[x]? with
    | none => .error (.valueError .danglingReference, store)
    | some lin =>
      match lin.structures.getLast? with
      | none => .error (.indexError .listIndexOutOfRange, store)
      | some fin =>
        match t.apply_transformation fin with
        | .error e => .error (e, store)
        | .ok res =>
          let step :=
            match res with
            | .one new_s =>
              ({ lin with structures := lin.structures ++ [new_s],
                          transformations := lin.transformations ++ [t] },
               ([] : List Nat), ([] : List Nat))
            | .many new_structs =>
              ({ lin with structures := lin.structures ++ new_structs,
                          transformations :=
                            lin.transformations ++ new_structs.map (fun _ => t) },
               [x], List.replicate new_structs.length x)
          let lin2 := if clear_redo then { step.1 with redo_trans := [] } else step.1
          match sweepMembers t clear_redo rest (store.set x lin2) with
          | .error e => .error e
          | .ok (storeF, dels, news) => .ok (storeF, step.2.1 ++ dels, step.2.2 ++ news)

/-- Python list.remove(a): removes the first occurrence of a, returning none
(ValueError) when a is absent. -/
def listRemove (a : Nat) : List Nat → Option (List Nat)
  | [] => none
  | b :: bs => if b = a then some bs else (listRemove a bs).map (fun r => b :: r)

/-- The removal loop after the sweep: for x in structures_to_delete:
self._transformed_structures.remove(x).  Returns the flag false with the
partially processed list if some removal raises ValueError (unreachable for
states built by the modelled operations). -/
def removeAll : List Nat → List Nat → Bool × List Nat
  | [], ms => (true, ms)
  | a :: rest, ms =>
    match listRemove a ms with
    | none => (false, ms)
    | some ms2 => removeAll rest ms2

/-- TransformedStructureTree.append_transformation (source lines 278-309):
sweep all members, then remove the members marked for deletion and extend the
member list with the collected replacement references.  A raise during the
sweep propagates with the member list untouched but the store keeping the
mutations already performed. -/
def append_transformation (self : TransformedStructureTree) (t : TreeTransformation)
    (clear_redo : Bool) : Except (PyErr × TransformedStructureTree) TransformedStructureTree :=
  match sweepMembers t clear_redo self.members self.store with
  | .error (e, store2) => .error (e, { self with store := store2 })
  | .ok (store2, dels, news) =>
    match removeAll dels self.members with
    | (false, membersSoFar) =>
      .error (.valueError .notInList, { store := store2, members := membersSoFar })
    | (true, members2) => .ok { store := store2, members := members2 ++ news }

/-- TransformedStructureTree.__getitem__ (source lines 272-273):

    return [x.__getitem__(self, index) for x in self._transformed_structures]

x.__getitem__ is a bound method taking a single index argument, but it is
invoked with two arguments (the tree itself, then the index), so for every
member the Python runtime raises TypeError before the member method body
runs; the comprehension over an empty member list returns [] without calling
anything.  The arity failure is embedded as the per-element error below. -/
def getitem (self : TransformedStructureTree) (_index : Nat) :
    Except PyErr (List (Struct × List TreeTransformation)) :=
  match self.members with
  | [] => .ok []
  | _ :: _ => .error (.typeError .tooManyArguments)

end TransformedStructureTree

/-! ## Concrete instances used by witnesses and counterexamples -/

/-- A 1-to-1 transformation used in witnesses: accepts every structure. -/
def tInc : Transformation := ⟨fun s => .ok (s + 1)⟩

/-- A transformation that rejects every structure. -/
def tReject : Transformation :=
  ⟨fun _ => .error (.invalidOperationError .rejectedByTransformation)⟩

/-- A forest-level transformation that is one-to-many on every input: it
returns the three artifacts 1, 2, 3 (the B1, B2, B3 of the scenario). -/
def tSplit : TreeTransformation := ⟨fun _ => .ok (.many [1, 2, 3])⟩

/-- A forest-level transformation that advances structure 0 (to 1) and
rejects every other structure. -/
def tPartial : TreeTransformation :=
  ⟨fun s => if s = 0 then .ok (.one 1)
            else .error (.invalidOperationError .rejectedByTransformation)⟩

/-- A two-step lineage 0 -> 1 -> 2 built by tInc, with empty redo buffer. -/
def lTwo : TransformedStructure :=
  { source := emptySource, structures := [0, 1, 2],
    transformations := [tInc, tInc], redo_trans := [] }

/-- The forest state the source produces for the C1 scenario: one shared
member object holding all three split results, referenced three times. -/
def splitResult : TransformedStructureTree :=
  { store := [⟨[0, 1, 2, 3], [tSplit, tSplit, tSplit], []⟩],
    members := [0, 0, 0] }

/-- The forest state the source leaves behind in the C2 scenario: the first
member advanced by one step, the second untouched, the member list
unchanged. -/
def failedSweepState : TransformedStructureTree :=
  { store := [⟨[0, 1], [tPartial], []⟩, ⟨[10], [], []⟩],
    members := [0, 1] }

/-- The lineage built by init 0 [tInc] []. -/
def lInit : TransformedStructure :=
  { source := emptySource, structures := [0, 1],
    transformations := [tInc], redo_trans := [] }

/-! ## Helper lemmas (shared) -/

/-- A successful lineage append grows the structure and transformation lists
by exactly one element each. -/
theorem append_ok_lengths {l l2 : TransformedStructure} {t : Transformation}
    {c : Bool} (h : l.append_transformation t c = .ok l2) :
    l2.structures.length = l.structures.length + 1 ∧
    l2.transformations.length = l.transformations.length + 1 := by
  unfold TransformedStructure.append_transformation at h
  split at h
  · exact absurd h (by simp)
  · split at h
    · exact absurd h (by simp)
    · simp only [Except.ok.injEq] at h
      subst h
      simp

/-- extend_transformations preserves the length invariant. -/
theorem extend_ok_inv :
    ∀ (ts : List Transformation) (l l2 : TransformedStructure),
      l.Inv → l.extend_transformations ts = .ok l2 → l2.Inv := by
  intro ts
  induction ts with
  | nil =>
    intro l l2 h1 h2
    unfold TransformedStructure.extend_transformations at h2
    simp only [Except.ok.injEq] at h2
    subst h2
    exact h1
  | cons t rest ih =>
    intro l l2 h1 h2
    unfold TransformedStructure.extend_transformations at h2
    split at h2
    · exact absurd h2 (by simp)
    next lmid hmid =>
      have hlen := append_ok_lengths hmid
      exact ih lmid l2 (by unfold TransformedStructure.Inv at h1 ⊢; omega) h2

/-- The history-loading loop produces structure and transformation lists of
equal length. -/
theorem processHistory_lengths :
    ∀ (hist : List HistItem) (ss : List Struct) (ts : List Transformation),
      TransformedStructure.processHistory hist = .ok (ss, ts) →
      ss.length = ts.length := by
  intro hist
  induction hist with
  | nil =>
    intro ss ts h
    unfold TransformedStructure.processHistory at h
    simp only [Except.ok.injEq, Prod.mk.injEq] at h
    obtain ⟨h1, h2⟩ := h
    subst h1; subst h2; rfl
  | cons item rest ih =>
    intro ss ts h
    match item with
    | .provRec _ =>
      unfold TransformedStructure.processHistory at h
      exact absurd h (by simp)
    | .stepRec t s =>
      unfold TransformedStructure.processHistory at h
      cases hpr : TransformedStructure.processHistory rest with
      | error e =>
        rw [hpr] at h
        exact absurd h (by simp)
      | ok pr =>
        obtain ⟨ss2, ts2⟩ := pr
        rw [hpr] at h
        simp only [Except.ok.injEq, Prod.mk.injEq] at h
        obtain ⟨h1, h2⟩ := h
        subst h1; subst h2
        have := ih ss2 ts2 hpr
        simp [this]

/-- On a lineage satisfying the length invariant with a nonempty
transformation list, undo_last_transformation succeeds and produces exactly
the popped state with the popped transformation pushed onto the redo
buffer. -/
theorem undo_last_ok_of_inv (l : TransformedStructure) (hinv : l.Inv)
    (hne : l.transformations ≠ []) :
    l.undo_last_transformation =
      .ok ⟨l.source, l.structures.dropLast, l.transformations.dropLast,
           l.redo_trans ++ [l.transformations.getLast hne]⟩ := by
  have hsne : l.structures ≠ [] := by
    intro hh
    unfold TransformedStructure.Inv at hinv
    rw [hh] at hinv
    simp at hinv
  unfold TransformedStructure.undo_last_transformation
  rw [if_neg (by simp [hne])]
  rw [List.getLast?_eq_getLast l.structures hsne,
      List.getLast?_eq_getLast l.transformations hne]

/-- Iterated undo on an invariant-satisfying lineage: k undos succeed for
every k up to the number of applied transformations, preserving the
invariant and shrinking the transformation list by k. -/
theorem undo_iter_ok :
    ∀ (k : Nat) (l : TransformedStructure), l.Inv →
      k ≤ l.transformations.length →
      ∃ l2, TransformedStructure.undo_iter k l = .ok l2 ∧ l2.Inv ∧
        l2.transformations.length = l.transformations.length - k := by
  intro k
  induction k with
  | zero =>
    intro l hinv _
    exact ⟨l, rfl, hinv, by omega⟩
  | succ k ih =>
    intro l hinv hk
    obtain ⟨l2, he, hinv2, hlen2⟩ := ih l hinv (by omega)
    have hne : l2.transformations ≠ [] := by
      intro hh
      rw [hh] at hlen2
      simp at hlen2
      omega
    have hlenne : l2.transformations.length ≠ 0 := by
      intro hh; exact hne (List.length_eq_zero.mp hh)
    refine ⟨⟨l2.source, l2.structures.dropLast, l2.transformations.dropLast,
             l2.redo_trans ++ [l2.transformations.getLast hne]⟩, ?_, ?_, ?_⟩
    · unfold TransformedStructure.undo_iter
      rw [he]
      exact undo_last_ok_of_inv l2 hinv2 hne
    · unfold TransformedStructure.Inv at hinv2 ⊢
      simp only [List.length_dropLast]
      omega
    · simp only [List.length_dropLast]
      omega

/-! ## Claim theorems -/

/-- C1: appending a one-to-many transformation (returning [1, 2, 3]) to the
forest built from the single artifact 0 leaves member_count() == 3, as the
claim states, but the three member slots all alias the single object 0 of the
store, whose history now holds THREE steps (all three new structures were
appended to the same object), not one step each as the claim requires. -/
theorem c1_forest_split_aliasing :
    TransformedStructureTree.append_transformation
      (TransformedStructureTree.init [0]) tSplit true = .ok splitResult ∧
    splitResult.member_count = 3 ∧
    splitResult.members = [0, 0, 0] ∧
    (splitResult.store[0]?).map (fun lin => lin.transformations.length) = some 3 ∧
    (splitResult.store[0]?).map (fun lin => lin.structures) = some [0, 1, 2, 3] :=
  ⟨rfl, rfl, rfl, rfl, rfl⟩

/-- C2: on the forest [0, 10], a transformation that advances 0 and rejects
10 makes append_transformation raise the transformation error, but the state
it leaves behind has member 0 already advanced (history length 1, one extra
structure) while the claim requires every member history length unchanged;
only the member count is preserved. -/
theorem c2_forest_nonatomic_failure :
    TransformedStructureTree.append_transformation
      (TransformedStructureTree.init [0, 10]) tPartial true =
      .error (.invalidOperationError .rejectedByTransformation, failedSweepState) ∧
    failedSweepState.member_count = 2 ∧
    (failedSweepState.store[0]?).map (fun lin => lin.transformations.length) = some 1 ∧
    (failedSweepState.store[0]?).map (fun lin => lin.structures) = some [0, 1] ∧
    (failedSweepState.store[1]?).map (fun lin => lin.transformations.length) = some 0 :=
  ⟨rfl, rfl, rfl, rfl, rfl⟩

/-- C3: the data-model invariant len(structures) == len(transformations) + 1
(hence structures never empty) is established by __init__ whenever it
completes, and is preserved by append_transformation,
extend_transformations, undo_last_transformation and
redo_next_transformation whenever they complete. -/
theorem c3_length_invariant :
    (∀ (s : Struct) (ts : List Transformation) (hist : List HistItem)
        (l : TransformedStructure),
      TransformedStructure.init s ts hist = .ok l → l.Inv) ∧
    (∀ (l : TransformedStructure) (t : Transformation) (c : Bool)
        (l2 : TransformedStructure),
      l.Inv → l.append_transformation t c = .ok l2 → l2.Inv) ∧
    (∀ (l : TransformedStructure) (ts : List Transformation)
        (l2 : TransformedStructure),
      l.Inv → l.extend_transformations ts = .ok l2 → l2.Inv) ∧
    (∀ (l l2 : TransformedStructure),
      l.Inv → l.undo_last_transformation = .ok l2 → l2.Inv) ∧
    (∀ (l l2 : TransformedStructure),
      l.Inv → l.redo_next_transformation = .ok l2 → l2.Inv) := by
  have happ : ∀ (l : TransformedStructure) (t : Transformation) (c : Bool)
      (l2 : TransformedStructure),
      l.Inv → l.append_transformation t c = .ok l2 → l2.Inv := by
    intro l t c l2 h1 h2
    have := append_ok_lengths h2
    unfold TransformedStructure.Inv at h1 ⊢
    omega
  refine ⟨?_, happ, fun l ts l2 h1 h2 => extend_ok_inv ts l l2 h1 h2, ?_, ?_⟩
  · intro s ts hist l h
    unfold TransformedStructure.init at h
    cases hph : TransformedStructure.processHistory (hist.drop 1) with
    | error e =>
      rw [hph] at h
      exact absurd h (by simp)
    | ok pr =>
      obtain ⟨ss, ts0⟩ := pr
      rw [hph] at h
      simp only at h
      split at h
      · exact absurd h (by simp)
      next l2 hext =>
        simp only [Except.ok.injEq] at h
        subst h
        have hl := processHistory_lengths (hist.drop 1) ss ts0 hph
        refine extend_ok_inv ts _ l2 ?_ hext
        unfold TransformedStructure.Inv
        simp [hl]
  · intro l l2 h1 h2
    unfold TransformedStructure.undo_last_transformation at h2
    split at h2
    · exact absurd h2 (by simp)
    · split at h2
      · exact absurd h2 (by simp)
      · split at h2
        · exact absurd h2 (by simp)
        · simp only [Except.ok.injEq] at h2
          subst h2
          next hlen _ _ _ _ =>
            unfold TransformedStructure.Inv at h1 ⊢
            simp only [List.length_dropLast]
            omega
  · intro l l2 h1 h2
    unfold TransformedStructure.redo_next_transformation at h2
    split at h2
    · exact absurd h2 (by simp)
    · split at h2
      · exact absurd h2 (by simp)
      · have := append_ok_lengths h2
        unfold TransformedStructure.Inv at h1 ⊢
        simp only at this
        omega

/-- Witness for c3_length_invariant: the invariant after a construction, an
append, an extend, an undo and a redo, each at concrete inputs. -/
theorem c3_length_invariant_witness :
    lInit.Inv ∧
    TransformedStructure.Inv
      ⟨emptySource, [0, 1, 2, 3], [tInc, tInc, tInc], []⟩ ∧
    TransformedStructure.Inv
      ⟨emptySource, [0, 1, 2, 3, 4], [tInc, tInc, tInc, tInc], []⟩ ∧
    TransformedStructure.Inv ⟨emptySource, [0, 1], [tInc], [tInc]⟩ ∧
    TransformedStructure.Inv ⟨emptySource, [0, 1, 2], [tInc, tInc], []⟩ :=
  ⟨c3_length_invariant.1 0 [tInc] [] lInit rfl,
   c3_length_invariant.2.1 lTwo tInc true _ rfl rfl,
   c3_length_invariant.2.2.1 lTwo [tInc, tInc] _ rfl rfl,
   c3_length_invariant.2.2.2.1 lTwo _ rfl rfl,
   c3_length_invariant.2.2.2.2 ⟨emptySource, [0, 1], [tInc], [tInc]⟩ _ rfl rfl⟩

/-- C4: when the transformation rejects the current (last) structure, the
lineage append_transformation raises that very error and the error state is
the untouched pre-call object: structures, transformations and redo buffer
unchanged. -/
theorem c4_lineage_append_transactional (l : TransformedStructure)
    (t : Transformation) (c : Bool) (s : Struct) (e : PyErr)
    (hs : l.structures.getLast? = some s)
    (he : t.apply_transformation s = .error e) :
    l.append_transformation t c = .error (e, l) := by
  simp [TransformedStructure.append_transformation, hs, he]

/-- Witness for c4_lineage_append_transactional at the lineage [0, 1, 2] and
the always-rejecting transformation. -/
theorem c4_lineage_append_transactional_witness :
    lTwo.append_transformation tReject true =
      .error (.invalidOperationError .rejectedByTransformation, lTwo) :=
  c4_lineage_append_transactional lTwo tReject true 2
    (.invalidOperationError .rejectedByTransformation) rfl rfl

/-- C5: on a lineage with n >= 1 applied transformations (and satisfying the
data-model length invariant), every successful undo_last_transformation pops
the last structure and the last transformation and appends the popped
transformation to the end of the redo buffer; undo succeeds k times for
every k <= n; and after n undos the transformation list is empty, so the
(n+1)-th undo raises the at-oldest-change IndexError (the spec calls it
EmptyHistoryError) with the state it received returned unchanged. -/
theorem c5_undo_exhaustion :
    (∀ (l : TransformedStructure) (hne : l.transformations ≠ []), l.Inv →
      l.undo_last_transformation =
        .ok ⟨l.source, l.structures.dropLast, l.transformations.dropLast,
             l.redo_trans ++ [l.transformations.getLast hne]⟩) ∧
    (∀ (l : TransformedStructure) (n : Nat),
      l.Inv → l.transformations.length = n → 1 ≤ n →
      (∀ k, k ≤ n → ∃ l2, TransformedStructure.undo_iter k l = .ok l2) ∧
      ∃ lf, TransformedStructure.undo_iter n l = .ok lf ∧
        lf.transformations = [] ∧
        TransformedStructure.undo_iter (n + 1) l =
          .error (.indexError .atOldestChange, lf)) := by
  constructor
  · intro l hne hinv
    exact undo_last_ok_of_inv l hinv hne
  · intro l n hinv hn h1
    subst hn
    constructor
    · intro k hk
      obtain ⟨l2, he, _, _⟩ := undo_iter_ok k l hinv hk
      exact ⟨l2, he⟩
    · obtain ⟨lf, he, hinv2, hlen2⟩ :=
        undo_iter_ok l.transformations.length l hinv (le_refl _)
      have hempty : lf.transformations = [] := by
        apply List.length_eq_zero.mp
        omega
      refine ⟨lf, he, hempty, ?_⟩
      have hstep : TransformedStructure.undo_iter (l.transformations.length + 1) l =
          lf.undo_last_transformation := by
        unfold TransformedStructure.undo_iter
        rw [he]
      rw [hstep]
      unfold TransformedStructure.undo_last_transformation
      rw [if_pos (by simp [hempty])]

/-- Witness for c5_undo_exhaustion on the two-step lineage [0, 1, 2]: one
explicit undo, two undos succeeding, and the third undo failing with the
state after two undos returned unchanged. -/
theorem c5_undo_exhaustion_witness :
    lTwo.undo_last_transformation =
      .ok ⟨emptySource, [0, 1], [tInc], [tInc]⟩ ∧
    (∃ l2, TransformedStructure.undo_iter 2 lTwo = .ok l2) ∧
    ∃ lf, TransformedStructure.undo_iter 2 lTwo = .ok lf ∧
      lf.transformations = [] ∧
      TransformedStructure.undo_iter 3 lTwo =
        .error (.indexError .atOldestChange, lf) :=
  ⟨c5_undo_exhaustion.1 lTwo (by simp [lTwo]) rfl,
   (c5_undo_exhaustion.2 lTwo 2 rfl rfl (by omega)).1 2 (by omega),
   (c5_undo_exhaustion.2 lTwo 2 rfl rfl (by omega)).2⟩

/-- C7: on any lineage whose last step is consistent with the data model
(the last structure a is the result of applying the last transformation t to
the structure p before it, per spec section 3), undo_last_transformation
yields exactly the popped state, and redo_next_transformation on that popped
state restores the original structure sequence, transformation list and redo
buffer; applying the first conjunct again to the restored state shows that a
further undo removes the step again. -/
theorem c7_undo_redo_round_trip (src : HistItem) (ss : List Struct)
    (p a : Struct) (ts : List Transformation) (t : Transformation)
    (rd : List Transformation)
    (hap : t.apply_transformation p = .ok a) :
    (⟨src, ss ++ [p, a], ts ++ [t], rd⟩ :
        TransformedStructure).undo_last_transformation =
      .ok ⟨src, ss ++ [p], ts, rd ++ [t]⟩ ∧
    (⟨src, ss ++ [p], ts, rd ++ [t]⟩ :
        TransformedStructure).redo_next_transformation =
      .ok ⟨src, ss ++ [p, a], ts ++ [t], rd⟩ := by
  have hsplit : ss ++ [p, a] = (ss ++ [p]) ++ [a] := by simp
  constructor
  · unfold TransformedStructure.undo_last_transformation
    rw [if_neg (by simp)]
    simp only [hsplit, List.getLast?_concat, List.dropLast_concat]
  · unfold TransformedStructure.redo_next_transformation
    rw [if_neg (by simp)]
    simp only [List.getLast?_concat, List.dropLast_concat]
    unfold TransformedStructure.append_transformation
    simp only [List.getLast?_concat, hap, hsplit]
    rfl

/-- Witness for c7_undo_redo_round_trip at the one-step lineage 0 -> 1
produced by tInc. -/
theorem c7_undo_redo_round_trip_witness :
    (⟨emptySource, [0, 1], [tInc], []⟩ :
        TransformedStructure).undo_last_transformation =
      .ok ⟨emptySource, [0], [], [tInc]⟩ ∧
    (⟨emptySource, [0], [], [tInc]⟩ :
        TransformedStructure).redo_next_transformation =
      .ok ⟨emptySource, [0, 1], [tInc], []⟩ :=
  c7_undo_redo_round_trip emptySource [] 0 1 [] tInc [] rfl

/-- C6: a successful append with clear_redo = true leaves the redo buffer
empty, so the next redo_next_transformation raises the at-latest-change
IndexError (the spec calls it EmptyHistoryError) with the state unchanged;
and a successful redo_next_transformation (which replays via
append_transformation with clear_redo = false) leaves exactly the remaining
redo entries (the buffer minus its popped last element). -/
theorem c6_redo_clearing :
    (∀ (l : TransformedStructure) (t : Transformation) (l2 : TransformedStructure),
      l.append_transformation t true = .ok l2 →
      l2.redo_trans = [] ∧
        l2.redo_next_transformation = .error (.indexError .atLatestChange, l2)) ∧
    (∀ (l l2 : TransformedStructure),
      l.redo_next_transformation = .ok l2 →
      l2.redo_trans = l.redo_trans.dropLast) := by
  constructor
  · intro l t l2 h
    unfold TransformedStructure.append_transformation at h
    split at h
    · exact absurd h (by simp)
    · split at h
      · exact absurd h (by simp)
      · simp only [Except.ok.injEq] at h
        subst h
        simp [TransformedStructure.redo_next_transformation]
  · intro l l2 h
    unfold TransformedStructure.redo_next_transformation at h
    split at h
    · exact absurd h (by simp)
    · split at h
      · exact absurd h (by simp)
      · unfold TransformedStructure.append_transformation at h
        split at h
        · exact absurd h (by simp)
        · split at h
          · exact absurd h (by simp)
          · simp only [Except.ok.injEq] at h
            subst h
            rfl

/-- Witness for c6_redo_clearing: appending tInc to [0, 1, 2] empties the
redo buffer and makes redo fail; redoing from a one-entry buffer leaves the
empty remainder. -/
theorem c6_redo_clearing_witness :
    ((⟨emptySource, [0, 1, 2, 3], [tInc, tInc, tInc], []⟩ :
        TransformedStructure).redo_trans = [] ∧
      (⟨emptySource, [0, 1, 2, 3], [tInc, tInc, tInc], []⟩ :
        TransformedStructure).redo_next_transformation =
        .error (.indexError .atLatestChange,
          ⟨emptySource, [0, 1, 2, 3], [tInc, tInc, tInc], []⟩)) ∧
    (⟨emptySource, [0, 1, 2, 3], [tInc, tInc, tInc], []⟩ :
        TransformedStructure).redo_trans =
      ({ lTwo with redo_trans := [tInc] } :
        TransformedStructure).redo_trans.dropLast :=
  ⟨c6_redo_clearing.1 lTwo tInc _ rfl,
   c6_redo_clearing.2 { lTwo with redo_trans := [tInc] } _ rfl⟩

/-- The history list written by to_dict is read back by the __init__ history
loop as exactly the recorded structures and transformations. -/
theorem buildHistory_processHistory :
    ∀ (ts : List Transformation) (ss : List Struct),
      ts.length ≤ ss.length →
      ∃ steps, TransformedStructure.buildHistory ts ss = .ok steps ∧
        TransformedStructure.processHistory steps =
          .ok (ss.take ts.length, ts) := by
  intro ts
  induction ts with
  | nil =>
    intro ss _
    exact ⟨[], rfl, rfl⟩
  | cons t rest ih =>
    intro ss h
    match ss with
    | [] => simp at h
    | s :: ss2 =>
      obtain ⟨steps, hb, hp⟩ := ih ss2 (by simpa using h)
      refine ⟨.stepRec t s :: steps, ?_, ?_⟩
      · unfold TransformedStructure.buildHistory
        rw [hb]
      · unfold TransformedStructure.processHistory
        rw [hp]
        simp

/-- C8: serializing a lineage satisfying the data-model length invariant via
to_dict and deserializing via from_dict yields a lineage with the same
current (final) structure and the same transformation sequence. -/
theorem c8_serialize_round_trip (l : TransformedStructure) (hinv : l.Inv) :
    ∃ d l2, l.to_dict = .ok d ∧ TransformedStructure.from_dict d = .ok l2 ∧
      l2.final_structure = l.final_structure ∧
      l2.transformations = l.transformations := by
  have hsne : l.structures ≠ [] := by
    intro hh
    unfold TransformedStructure.Inv at hinv
    rw [hh] at hinv
    simp at hinv
  have hfin := List.getLast?_eq_getLast l.structures hsne
  obtain ⟨steps, hb, hp⟩ :=
    buildHistory_processHistory l.transformations l.structures
      (by unfold TransformedStructure.Inv at hinv; omega)
  refine ⟨⟨l.structures.getLast hsne, l.source :: steps,
            TransformedStructure.formatVersion⟩,
          ⟨l.source,
            l.structures.take l.transformations.length ++
              [l.structures.getLast hsne],
            l.transformations, []⟩, ?_, ?_, ?_, rfl⟩
  · unfold TransformedStructure.to_dict
    rw [hfin, hb]
  · unfold TransformedStructure.from_dict TransformedStructure.init
    have hdrop : (l.source :: steps).drop 1 = steps := rfl
    rw [hdrop, hp]
    rfl
  · show (l.structures.take l.transformations.length ++
      [l.structures.getLast hsne]).getLast? = l.structures.getLast?
    rw [List.getLast?_concat, hfin]

/-- Witness for c8_serialize_round_trip at the two-step lineage [0, 1, 2]. -/
theorem c8_serialize_round_trip_witness :
    ∃ d l2, lTwo.to_dict = .ok d ∧
      TransformedStructure.from_dict d = .ok l2 ∧
      l2.final_structure = lTwo.final_structure ∧
      l2.transformations = lTwo.transformations :=
  c8_serialize_round_trip lTwo rfl

/-- C9: the lineage getitem returns the pair (structures[i],
transformations[0:i]) for every in-range index i, and raises IndexError for
every index at or beyond the structure count.  The operation reads the state
without modifying it (it is a plain function of the state). -/
theorem c9_snapshot_at (l : TransformedStructure) (i : Nat) :
    (∀ h : i < l.structures.length,
      l.getitem i = .ok (l.structures.get ⟨i, h⟩, l.transformations.take i)) ∧
    (l.structures.length ≤ i →
      l.getitem i = .error (.indexError .listIndexOutOfRange)) := by
  constructor
  · intro h
    simp [TransformedStructure.getitem, List.getElem?_eq_getElem h]
  · intro h
    simp [TransformedStructure.getitem, List.getElem?_eq_none h]

/-- Witness for c9_snapshot_at: index 1 of the lineage [0, 1, 2] yields
(1, [tInc]); index 5 is out of range. -/
theorem c9_snapshot_at_witness :
    lTwo.getitem 1 = .ok (lTwo.structures.get ⟨1, by decide⟩,
      lTwo.transformations.take 1) ∧
    lTwo.getitem 5 = .error (.indexError .listIndexOutOfRange) :=
  ⟨(c9_snapshot_at lTwo 1).1 (by decide), (c9_snapshot_at lTwo 5).2 (by decide)⟩

/-- C10: the tree getitem raises (a TypeError: each member is handed two
positional arguments, the tree and the index, where its method accepts one)
for every index whenever the tree has at least one member, and returns the
empty list for every index when the tree is empty. -/
theorem c10_tree_getitem_arity (st : TransformedStructureTree) (i : Nat) :
    (st.members = [] → st.getitem i = .ok []) ∧
    (st.members ≠ [] → st.getitem i = .error (.typeError .tooManyArguments)) := by
  constructor
  · intro h
    simp [TransformedStructureTree.getitem, h]
  · intro h
    unfold TransformedStructureTree.getitem
    match hm : st.members with
    | [] => exact absurd hm h
    | _ :: _ => rfl

/-- Witness for c10_tree_getitem_arity on the empty tree and on a one-member
tree. -/
theorem c10_tree_getitem_arity_witness :
    (TransformedStructureTree.init []).getitem 0 = .ok [] ∧
    (TransformedStructureTree.init [0]).getitem 7 =
      .error (.typeError .tooManyArguments) :=
  ⟨(c10_tree_getitem_arity (TransformedStructureTree.init []) 0).1 rfl,
   (c10_tree_getitem_arity (TransformedStructureTree.init [0]) 7).2 (by decide)⟩
